import Mathlib

/-!
Verification of the gaia-audio processing pipeline.

Shallow embedding of the pure computational core of the gaia-audio
repository, together with proofs and refutations of the specified
properties.

Embedded components (file ↦ Lean definitions):

* `src/common/src/audio.rs` — WAV sample decoding (`decode_int_samples`)
  and the overlapping chunker (`split_signal`).
* `src/processing/src/mel.rs` — the two-channel BirdNET mel front-end
  (`MelSpecLayer.compute`, `birdnet_mel_spectrogram`).
* `src/processing/src/analysis.rs` — the privacy filter
  (`filter_humans`) and the confidence/species filter of `run_analysis`
  (`keep_prediction`, `run_analysis_filter`).
* `src/processing/src/model.rs` — `convert_v1_metadata` and the pure
  core of `MetaDataModel::get_species_list` (`metaSpeciesList`).
* `src/processing/src/manifest.rs` — manifest records and
  `ResolvedManifest::apply_variant`.
* `src/processing/src/download.rs` — the cross-restart backoff marker
  (`write_backoff_marker`).

Machine `f32`/`f64` values are modelled as `ℚ` (for the computable,
order/rounding-sensitive code paths) or `ℝ` (for the transcendental DSP
code), with floating-point rounding error ignored; `usize` casts of
non-negative floats are modelled by `Int.toNat ∘ Int.floor`, which also
agrees with Rust's saturating cast on negative inputs.
-/

/-! Section: list helpers. -/

theorem List.getD_ofFn {α : Type*} {n : ℕ} (f : Fin n → α) (i : ℕ) (d : α)
    (h : i < n) : (List.ofFn f).getD i d = f ⟨i, h⟩ := by
  simp [List.getD_eq_getElem?_getD, List.getElem?_ofFn, h]

/-! Section: audio reader (`src/common/src/audio.rs`).

`read_audio` decodes integer WAV samples with
`reader.into_samples::<i32>().map(|s| s.unwrap_or(0) as f32 / i32::MAX as f32)`.
`hound` yields the raw integer sample at the file's stored bit depth
(e.g. a full-scale 16-bit sample is `32767`), and the divisor used is
always `i32::MAX` regardless of the file's `bits_per_sample`. -/

/-- The `i32::MAX` constant, the divisor `read_audio` applies to every integer sample.
(The Rust expression `i32::MAX as f32` actually rounds to `2^31`; the
claim-relevant fact — that the divisor does not depend on the file's bit
depth — is unaffected, so we keep the exact integer value.) -/
def i32_MAX : ℤ := 2147483647

/-- The integer-format decode map of `read_audio` (audio.rs lines 28-31):
each raw sample (`None` for a read error, mapped to `0` by
`unwrap_or(0)`) is divided by `i32::MAX`. -/
def decode_int_samples (samples : List (Option ℤ)) : List ℚ :=
  samples.map (fun s => ((s.getD 0 : ℤ) : ℚ) / (i32_MAX : ℚ))

/-- Rust `(seconds * rate as f64) as usize` from `split_signal`. -/
def chunkSamplesQ (rate : ℕ) (seconds : ℚ) : ℕ :=
  (⌊seconds * (rate : ℚ)⌋).toNat

/-- Rust `((seconds - overlap) * rate as f64) as usize` from `split_signal`. -/
def stepSamplesQ (rate : ℕ) (seconds overlap : ℚ) : ℕ :=
  (⌊(seconds - overlap) * (rate : ℚ)⌋).toNat

/-- Rust `(min_len * rate as f64) as usize` from `split_signal`. -/
def minSamplesQ (rate : ℕ) (min_len : ℚ) : ℕ :=
  (⌊min_len * (rate : ℚ)⌋).toNat

/-- The loop body of the `while i < sig.len()` loop of `split_signal`
(audio.rs lines 117-137).  `fuel` bounds the number of iterations; the
Rust loop advances `i` by `step` each iteration, so for `step ≥ 1` a fuel
of `sig.length + 1` is never exhausted (`split_go_length` below never
hits the fuel case under its hypotheses). -/
def split_go (sig : List ℚ) (chunk_samples step min_samples : ℕ) :
    ℕ → ℕ → List (List ℚ)
  | 0, _ => []
  | fuel + 1, i =>
    if i < sig.length then
      -- `let end = (i + chunk_samples).min(sig.len()); let split = &sig[i..end];`
      -- modelled as `(sig.drop i).take chunk_samples`
      if ((sig.drop i).take chunk_samples).length < min_samples then []
      else
        -- `vec![0.0; chunk_samples]` with `padded[..split.len()]` overwritten
        (if ((sig.drop i).take chunk_samples).length < chunk_samples then
            (sig.drop i).take chunk_samples ++
              List.replicate (chunk_samples - ((sig.drop i).take chunk_samples).length) 0
          else (sig.drop i).take chunk_samples) ::
          split_go sig chunk_samples step min_samples fuel (i + step)
    else []

/-- Model of `split_signal` (audio.rs lines 106-139): split a signal into
overlapping chunks, zero-padding the last one if shorter than `seconds`;
chunks shorter than `min_len` are discarded. -/
def split_signal (sig : List ℚ) (rate : ℕ) (seconds overlap min_len : ℚ) :
    List (List ℚ) :=
  split_go sig (chunkSamplesQ rate seconds) (stepSamplesQ rate seconds overlap)
    (minSamplesQ rate min_len) (sig.length + 1) 0

theorem split_go_mem_length (sig : List ℚ) (cs st ms : ℕ) :
    ∀ fuel i c, c ∈ split_go sig cs st ms fuel i → c.length = cs := by
  intro fuel
  induction fuel with
  | zero => intro i c hc; simp [split_go] at hc
  | succ n ih =>
    intro i c hc
    rw [split_go] at hc
    by_cases hi : i < sig.length
    · rw [if_pos hi] at hc
      have hle : ((sig.drop i).take cs).length ≤ cs := by
        simp [List.length_take]
      by_cases hshort : ((sig.drop i).take cs).length < ms
      · rw [if_pos hshort] at hc
        simp at hc
      · rw [if_neg hshort] at hc
        rcases List.mem_cons.mp hc with h | h
        · subst h
          by_cases hpad : ((sig.drop i).take cs).length < cs
          · rw [if_pos hpad]
            simp only [List.length_append, List.length_replicate]
            omega
          · rw [if_neg hpad]
            omega
        · exact ih (i + st) c h
    · simp [hi] at hc

theorem split_go_length (sig : List ℚ) (cs st ms : ℕ)
    (hst : 1 ≤ st) (hms : 1 ≤ ms) (hcs : ms ≤ cs) :
    ∀ fuel i, sig.length + 1 ≤ fuel + i →
      (split_go sig cs st ms fuel i).length =
        if i + ms ≤ sig.length then (sig.length - ms - i) / st + 1 else 0 := by
  intro fuel
  induction fuel with
  | zero =>
    intro i hfuel
    have : ¬ i + ms ≤ sig.length := by omega
    simp [split_go, this]
  | succ n ih =>
    intro i hfuel
    rw [split_go]
    have hsplitlen : ((sig.drop i).take cs).length = min cs (sig.length - i) := by
      simp [List.length_take, List.length_drop]
    by_cases hi : i < sig.length
    · rw [if_pos hi]
      by_cases hshort : ((sig.drop i).take cs).length < ms
      · have hcond : ¬ i + ms ≤ sig.length := by
          rw [hsplitlen] at hshort
          omega
        rw [if_pos hshort, if_neg hcond]
        rfl
      · have hcond : i + ms ≤ sig.length := by
          rw [hsplitlen] at hshort
          omega
        rw [if_neg hshort, if_pos hcond, List.length_cons,
          ih (i + st) (by omega)]
        by_cases hnext : i + st + ms ≤ sig.length
        · rw [if_pos hnext]
          have h1 : sig.length - ms - (i + st) = (sig.length - ms - i) - st := by omega
          have h2 : st ≤ sig.length - ms - i := by omega
          rw [h1, Nat.div_eq_sub_div (by omega) h2]
        · rw [if_neg hnext]
          have : sig.length - ms - i < st := by omega
          rw [Nat.div_eq_of_lt this]
    · have hcond : ¬ i + ms ≤ sig.length := by omega
      rw [if_neg hi, if_neg hcond]
      rfl

/-! Section: mel front-end (`src/processing/src/mel.rs`).

The Rust code builds several flat row-major buffers by writing each flat
index exactly once inside nested loops; every such buffer is modelled as
`List.ofFn` of the function giving the value written at each flat index.
Transcendental `f32` arithmetic is modelled over `ℝ`, ignoring rounding. -/

/-- Record `MelSpecParams` (mel.rs lines 30-46). -/
structure MelSpecParams where
  frame_length : ℕ
  frame_step : ℕ
  n_mels : ℕ
  fmin : ℝ
  fmax : ℝ
  sample_rate : ℝ
  mag_scale : ℝ

/-- Parameters `birdnet_mel_spec1` (mel.rs lines 63-73): low-frequency channel. -/
noncomputable def birdnet_mel_spec1 : MelSpecParams :=
  { frame_length := 2048, frame_step := 278, n_mels := 96,
    fmin := 0, fmax := 3000, sample_rate := 48000, mag_scale := 1.2110004 }

/-- Parameters `birdnet_mel_spec2` (mel.rs lines 76-86): high-frequency channel. -/
noncomputable def birdnet_mel_spec2 : MelSpecParams :=
  { frame_length := 1024, frame_step := 280, n_mels := 96,
    fmin := 500, fmax := 15000, sample_rate := 48000, mag_scale := 1.4465874 }

/-- The closure `hz_to_mel` of `linear_to_mel_weight_matrix`: HTK mel
scale `mel = 1127 · ln(1 + f/700)`. -/
noncomputable def hz_to_mel (f : ℝ) : ℝ := 1127 * Real.log (1 + f / 700)

/-- Constant `f32::EPSILON` = 2⁻²³, the slope-degeneracy guard in the filterbank. -/
noncomputable def f32_EPSILON : ℝ := 1 / 8388608

/-- Model of `linear_to_mel_weight_matrix` (mel.rs lines 248-301): flat
`[n_fft_bins, n_mels]` row-major matrix.  The loops write
`weights[b * n_mels + m]` once for every `b ≥ 1`; row `b = 0` (the DC
bin) stays zero.  Element at flat index `j = b * n_mels + m`: -/
noncomputable def linear_to_mel_weight_matrix (n_mels n_fft_bins : ℕ)
    (sample_rate fmin fmax : ℝ) : List ℝ :=
  List.ofFn fun j : Fin (n_fft_bins * n_mels) =>
    let b := (j : ℕ) / n_mels
    let m := (j : ℕ) % n_mels
    if b = 0 then 0
    else
      let mel_min := hz_to_mel fmin
      let mel_max := hz_to_mel fmax
      let n_edges := n_mels + 2
      -- `mel_edges[i] = mel_min + (mel_max - mel_min) * i / (n_edges - 1)`
      let lower := mel_min + (mel_max - mel_min) * m / ((n_edges - 1 : ℕ) : ℝ)
      let center := mel_min + (mel_max - mel_min) * (m + 1) / ((n_edges - 1 : ℕ) : ℝ)
      let upper := mel_min + (mel_max - mel_min) * (m + 2) / ((n_edges - 1 : ℕ) : ℝ)
      -- `fft_freqs[b] = b * nyquist / (n_fft_bins - 1)`, converted to mel
      let nyquist := sample_rate / 2
      let mel_f := hz_to_mel (b * nyquist / ((n_fft_bins - 1 : ℕ) : ℝ))
      let lower_slope :=
        if f32_EPSILON < |center - lower| then (mel_f - lower) / (center - lower) else 0
      let upper_slope :=
        if f32_EPSILON < |upper - center| then (upper - mel_f) / (upper - center) else 0
      max (min lower_slope upper_slope) 0

/-- Model of `hann_window` (mel.rs lines 230-237), the periodic Hann window:
`w[i] = 0.5 * (1 - cos(2π i / n))`. -/
noncomputable def hann_window (n : ℕ) : List ℝ :=
  List.ofFn fun i : Fin n => 0.5 * (1 - Real.cos (Real.pi * 2 * (i : ℕ) / (n : ℕ)))

/-- Real part of the unnormalised forward DFT computed by `rustfft`'s
`plan_fft_forward` on a real-valued (zero-imaginary-part) buffer:
`Re Σ_n x[n] · e^(-2πikn/N) = Σ_n x[n] · cos(2πkn/N)`. -/
noncomputable def dft_re (x : List ℝ) (N k : ℕ) : ℝ :=
  ∑ n ∈ Finset.range N, x.getD n 0 * Real.cos (2 * Real.pi * k * n / N)

/-- Step 1 of `MelSpecLayer::compute` (mel.rs lines 113-118): min-max
normalisation to `[-1, 1]` with an `1e-6` regulariser.  The Rust fold of
`f32::min` / `f32::max` starting from `(∞, -∞)` equals the list
minimum / maximum on every nonempty input; on the empty input the
values are unused (the `map` below is empty). -/
noncomputable def melNormalize (audio : List ℝ) : List ℝ :=
  let min_val := audio.min?.getD 0
  let max_val := audio.max?.getD 0
  let range := max_val - min_val + 1e-6
  audio.map fun v => ((v - min_val) / range - 0.5) * 2

/-- Frame count `n_frames = (len.saturating_sub(frame_length)) / frame_step + 1`
(mel.rs line 121); `ℕ` subtraction is saturating. -/
def MelSpecLayer.nFrames (p : MelSpecParams) (len : ℕ) : ℕ :=
  (len - p.frame_length) / p.frame_step + 1

/-- Step 2 (mel.rs lines 124-146): `stft_real`, flat `[n_frames, n_bins]`
row-major; the element written at `frame_idx * n_bins + bin` is the real
part of FFT bin `bin` of the Hann-windowed frame starting at
`frame_idx * frame_step`. -/
noncomputable def MelSpecLayer.stft_real (p : MelSpecParams) (norm : List ℝ) : List ℝ :=
  List.ofFn fun j : Fin (MelSpecLayer.nFrames p norm.length * (p.frame_length / 2 + 1)) =>
    let n_bins := p.frame_length / 2 + 1
    let frame_idx := (j : ℕ) / n_bins
    let bin := (j : ℕ) % n_bins
    let start := frame_idx * p.frame_step
    dft_re
      ((List.range p.frame_length).map fun i =>
        norm.getD (start + i) 0 * (hann_window p.frame_length).getD i 0)
      p.frame_length bin

/-- Step 3 (mel.rs lines 148-161): the mel filterbank matmul
`[n_frames, n_bins] × [n_bins, n_mels]`, flat row-major
`[n_frames, n_mels]`; `mel[f * n_mels + m] = Σ_b stft[f * n_bins + b] *
filterbank[b * n_mels + m]`. -/
noncomputable def MelSpecLayer.melMat (p : MelSpecParams) (norm : List ℝ) : List ℝ :=
  List.ofFn fun j : Fin (MelSpecLayer.nFrames p norm.length * p.n_mels) =>
    let n_bins := p.frame_length / 2 + 1
    let f := (j : ℕ) / p.n_mels
    let m := (j : ℕ) % p.n_mels
    ∑ b ∈ Finset.range n_bins,
      (MelSpecLayer.stft_real p norm).getD (f * n_bins + b) 0 *
        (linear_to_mel_weight_matrix p.n_mels n_bins p.sample_rate p.fmin p.fmax).getD
          (b * p.n_mels + m) 0

/-- Steps 4-5 (mel.rs lines 163-173): square every value, then apply the
nonlinear magnitude scaling `v ^ (1 / (1 + exp(mag_scale)))`. -/
noncomputable def MelSpecLayer.melScaled (p : MelSpecParams) (norm : List ℝ) : List ℝ :=
  ((MelSpecLayer.melMat p norm).map fun v => v * v).map
    fun v => v ^ (1 / (1 + Real.exp p.mag_scale))

/-- Step 6 (mel.rs lines 175-180): reverse the mel axis within each
frame of the flat `[n_frames, n_mels]` buffer. -/
noncomputable def MelSpecLayer.melFlipped (p : MelSpecParams) (norm : List ℝ) : List ℝ :=
  List.ofFn fun j : Fin (MelSpecLayer.nFrames p norm.length * p.n_mels) =>
    let f := (j : ℕ) / p.n_mels
    let m := (j : ℕ) % p.n_mels
    (MelSpecLayer.melScaled p norm).getD (f * p.n_mels + (p.n_mels - 1 - m)) 0

/-- Step 7 (mel.rs lines 182-188): transpose to `[n_mels, n_frames]`:
`transposed[m * n_frames + f] = mel[f * n_mels + m]`. -/
noncomputable def MelSpecLayer.transpose (p : MelSpecParams) (norm : List ℝ) : List ℝ :=
  List.ofFn fun j : Fin (p.n_mels * MelSpecLayer.nFrames p norm.length) =>
    let n_frames := MelSpecLayer.nFrames p norm.length
    let m := (j : ℕ) / n_frames
    let f := (j : ℕ) % n_frames
    (MelSpecLayer.melFlipped p norm).getD (f * p.n_mels + m) 0

/-- Model of `MelSpecLayer::compute` (mel.rs lines 110-191): returns the flat
`[n_mels, n_frames]` buffer plus the `(n_mels, n_frames)` dimensions. -/
noncomputable def MelSpecLayer.compute (p : MelSpecParams) (audio : List ℝ) :
    List ℝ × ℕ × ℕ :=
  (MelSpecLayer.transpose p (melNormalize audio), p.n_mels,
    MelSpecLayer.nFrames p (melNormalize audio).length)

/-- Model of `birdnet_mel_spectrogram` (mel.rs lines 198-221): interleave the two
channels into NHWC `[1, n_mels, n_frames, 2]`; the loops write
`out[(m * n_frames + f) * 2] = ch0[m * n_frames + f]` and
`out[(m * n_frames + f) * 2 + 1] = ch1[m * n_frames + f]`, with the loop
bounds (and the buffer size `n_mels * n_frames * 2`) taken from layer 1's
dimensions. -/
noncomputable def birdnet_mel_spectrogram (audio : List ℝ) : List ℝ :=
  List.ofFn fun idx :
      Fin ((MelSpecLayer.compute birdnet_mel_spec1 audio).2.1 *
        (MelSpecLayer.compute birdnet_mel_spec1 audio).2.2 * 2) =>
    if (idx : ℕ) % 2 = 0 then
      (MelSpecLayer.compute birdnet_mel_spec1 audio).1.getD ((idx : ℕ) / 2) 0
    else
      (MelSpecLayer.compute birdnet_mel_spec2 audio).1.getD ((idx : ℕ) / 2) 0

theorem melNormalize_length (audio : List ℝ) :
    (melNormalize audio).length = audio.length := by
  simp [melNormalize]

theorem compute_n_frames (p : MelSpecParams) (audio : List ℝ) :
    (MelSpecLayer.compute p audio).2.2 =
      (audio.length - p.frame_length) / p.frame_step + 1 := by
  simp [MelSpecLayer.compute, MelSpecLayer.nFrames, melNormalize_length]

theorem compute_n_mels (p : MelSpecParams) (audio : List ℝ) :
    (MelSpecLayer.compute p audio).2.1 = p.n_mels := rfl

theorem compute_fst_length (p : MelSpecParams) (audio : List ℝ) :
    (MelSpecLayer.compute p audio).1.length =
      p.n_mels * ((audio.length - p.frame_length) / p.frame_step + 1) := by
  simp [MelSpecLayer.compute, MelSpecLayer.transpose, List.length_ofFn,
    MelSpecLayer.nFrames, melNormalize_length]

/-- C1: for every 144000-sample (3 s at 48 kHz) chunk, the mel front-end
produces a buffer of exactly 96·511·2 elements; each channel contributes
`n_frames = (144000 - frame_length_c) / frame_step_c + 1 = 511` frames
(channel 0: frame length 2048, step 278; channel 1: frame length 1024,
step 280); and the output element at flat index `(m·511 + f)·2 + c`
equals element `m·511 + f` of channel `c`'s transposed
`[n_mels, n_frames]` mel spectrogram. -/
theorem C1_mel_output_shape_interleave (audio : List ℝ) (h : audio.length = 144000) :
    (birdnet_mel_spectrogram audio).length = 96 * 511 * 2 ∧
    (MelSpecLayer.compute birdnet_mel_spec1 audio).2.2 = (144000 - 2048) / 278 + 1 ∧
    (MelSpecLayer.compute birdnet_mel_spec2 audio).2.2 = (144000 - 1024) / 280 + 1 ∧
    (MelSpecLayer.compute birdnet_mel_spec1 audio).2.2 = 511 ∧
    (MelSpecLayer.compute birdnet_mel_spec2 audio).2.2 = 511 ∧
    (MelSpecLayer.compute birdnet_mel_spec1 audio).1.length = 96 * 511 ∧
    (MelSpecLayer.compute birdnet_mel_spec2 audio).1.length = 96 * 511 ∧
    ∀ m < 96, ∀ f < 511, ∀ c < 2,
      (birdnet_mel_spectrogram audio).getD ((m * 511 + f) * 2 + c) 0 =
        (if c = 0 then (MelSpecLayer.compute birdnet_mel_spec1 audio).1
         else (MelSpecLayer.compute birdnet_mel_spec2 audio).1).getD (m * 511 + f) 0 := by
  have hm1 : (MelSpecLayer.compute birdnet_mel_spec1 audio).2.1 = 96 := rfl
  have hf1 : (MelSpecLayer.compute birdnet_mel_spec1 audio).2.2 = 511 := by
    rw [compute_n_frames, h]
    norm_num [birdnet_mel_spec1]
  have hf2 : (MelSpecLayer.compute birdnet_mel_spec2 audio).2.2 = 511 := by
    rw [compute_n_frames, h]
    norm_num [birdnet_mel_spec2]
  refine ⟨?_, ?_, ?_, hf1, hf2, ?_, ?_, ?_⟩
  · rw [birdnet_mel_spectrogram, List.length_ofFn, hm1, hf1]
  · rw [compute_n_frames, h]
    norm_num [birdnet_mel_spec1]
  · rw [compute_n_frames, h]
    norm_num [birdnet_mel_spec2]
  · rw [compute_fst_length, h]
    norm_num [birdnet_mel_spec1]
  · rw [compute_fst_length, h]
    norm_num [birdnet_mel_spec2]
  · intro m hm f hf c hc
    have hidx : (m * 511 + f) * 2 + c <
        (MelSpecLayer.compute birdnet_mel_spec1 audio).2.1 *
          (MelSpecLayer.compute birdnet_mel_spec1 audio).2.2 * 2 := by
      rw [hm1, hf1]
      omega
    rw [birdnet_mel_spectrogram, List.getD_ofFn _ _ _ hidx]
    have hcase : c = 0 ∨ c = 1 := by omega
    rcases hcase with hc0 | hc1
    · subst hc0
      have hpar : ((m * 511 + f) * 2 + 0) % 2 = 0 := by omega
      have hdiv : ((m * 511 + f) * 2 + 0) / 2 = m * 511 + f := by omega
      rw [if_pos hpar, hdiv, if_pos rfl]
    · subst hc1
      have hpar : ¬ ((m * 511 + f) * 2 + 1) % 2 = 0 := by omega
      have hdiv : ((m * 511 + f) * 2 + 1) / 2 = m * 511 + f := by omega
      rw [if_neg hpar, hdiv, if_neg (by norm_num)]

/-- Witness for C1 at the all-zero 3-second chunk. -/
theorem C1_mel_output_shape_interleave_witness :
    (List.replicate 144000 (0 : ℝ)).length = 144000 ∧
    ((birdnet_mel_spectrogram (List.replicate 144000 (0 : ℝ))).length = 96 * 511 * 2 ∧
    (MelSpecLayer.compute birdnet_mel_spec1 (List.replicate 144000 (0 : ℝ))).2.2 =
      (144000 - 2048) / 278 + 1 ∧
    (MelSpecLayer.compute birdnet_mel_spec2 (List.replicate 144000 (0 : ℝ))).2.2 =
      (144000 - 1024) / 280 + 1 ∧
    (MelSpecLayer.compute birdnet_mel_spec1 (List.replicate 144000 (0 : ℝ))).2.2 = 511 ∧
    (MelSpecLayer.compute birdnet_mel_spec2 (List.replicate 144000 (0 : ℝ))).2.2 = 511 ∧
    (MelSpecLayer.compute birdnet_mel_spec1 (List.replicate 144000 (0 : ℝ))).1.length =
      96 * 511 ∧
    (MelSpecLayer.compute birdnet_mel_spec2 (List.replicate 144000 (0 : ℝ))).1.length =
      96 * 511 ∧
    ∀ m < 96, ∀ f < 511, ∀ c < 2,
      (birdnet_mel_spectrogram (List.replicate 144000 (0 : ℝ))).getD
          ((m * 511 + f) * 2 + c) 0 =
        (if c = 0 then
            (MelSpecLayer.compute birdnet_mel_spec1 (List.replicate 144000 (0 : ℝ))).1
          else
            (MelSpecLayer.compute birdnet_mel_spec2 (List.replicate 144000 (0 : ℝ))).1).getD
          (m * 511 + f) 0) :=
  ⟨List.length_replicate 144000 0,
    C1_mel_output_shape_interleave (List.replicate 144000 (0 : ℝ))
      (List.length_replicate 144000 0)⟩

/-! Section: string helpers.

Models of the Rust string operations used by the analysis code. -/

/-- Whether `pat` starts `s` (over `Char` lists). -/
def charsStartWith : List Char → List Char → Bool
  | _, [] => true
  | [], _ :: _ => false
  | a :: s, b :: p => a == b && charsStartWith s p

/-- Whether `pat` occurs as a contiguous substring of `s`: models Rust
`str::contains(pat)` over `Char` lists. -/
def charsHaveSub : List Char → List Char → Bool
  | [], pat => pat.isEmpty
  | a :: s, pat => charsStartWith (a :: s) pat || charsHaveSub s pat

/-- Rust `str::contains(pat)` on strings. -/
def strContainsSub (s pat : String) : Bool :=
  charsHaveSub s.toList pat.toList

/-- Rust `s.split('_').next().unwrap_or(s)`: the part of `s` before the
first underscore (all of `s` when there is none). -/
def stripAfterUnderscore (s : String) : String :=
  String.mk (s.toList.takeWhile (fun c => c ≠ '_'))

/-! Section: detection assembly and filtering (`analysis.rs`, `detection.rs`). -/

/-- Rust `f64::round`: round half away from zero. -/
def roundHalfAwayQ (q : ℚ) : ℤ :=
  if 0 ≤ q then ⌊q + 1 / 2⌋ else -⌊-q + 1 / 2⌋

/-- Rust `(confidence * 10000.0).round() / 10000.0`, the stored confidence of
`Detection::new` (detection.rs line 56). -/
def round4 (c : ℚ) : ℚ :=
  (roundHalfAwayQ (c * 10000) : ℚ) / 10000

/-- The fields of `Detection` relevant here (detection.rs lines 10-27):
`confidence` is the *stored* (rounded) confidence. -/
structure DetectionM where
  scientific_name : String
  confidence : ℚ
deriving DecidableEq

/-- One iteration of the prediction loop of `run_analysis`
(analysis.rs lines 127-151): `true` iff no `continue` fires, i.e. the
prediction survives the confidence threshold and the
include / exclude / occurrence-gate list checks. -/
def keep_prediction (confidence_min : ℚ)
    (include_list exclude_list predicted_list whitelist : List String)
    (sci_name : String) (confidence : ℚ) : Bool :=
  !(confidence < confidence_min) &&
  !(!include_list.isEmpty && !include_list.contains sci_name) &&
  !(!exclude_list.isEmpty && exclude_list.contains sci_name) &&
  !(!predicted_list.isEmpty && !predicted_list.contains sci_name &&
      !whitelist.contains sci_name)

/-- The statement `let predicted_species_list: Vec<String> = vec![];`
(analysis.rs line 116): the occurrence-gate list consulted by the filter
is hard-coded empty — `run_analysis` never calls
`LoadedModel::get_species_list`. -/
def predicted_species_list : List String := []

/-- The detections emitted for one time-labelled chunk by the filter
loop of `run_analysis` (analysis.rs lines 119-163), consulting the
hard-coded `predicted_species_list`. -/
def run_analysis_filter (confidence_min : ℚ)
    (include_list exclude_list whitelist : List String)
    (entries : List (String × ℚ)) : List DetectionM :=
  entries.filterMap fun p =>
    if keep_prediction confidence_min include_list exclude_list
        predicted_species_list whitelist p.1 p.2 then
      some { scientific_name := p.1, confidence := round4 p.2 }
    else none

/-- The pure core of `MetaDataModel::get_species_list`
(model.rs lines 388-433), parametrised by the metadata model's output
scores (the neural network itself is opaque data): pair scores with
labels, sort descending by score (stably, like Rust `sort_by`), keep the
labels scoring at least `sf_thresh`, and strip each label at its first
underscore. -/
def metaSpeciesList (labels : List String) (output : List ℚ)
    (sf_thresh : ℚ) : List String :=
  let scored := output.zip labels
  let sorted := scored.mergeSort (fun a b => decide (b.1 ≤ a.1))
  (sorted.filter fun s => decide (sf_thresh ≤ s.1)).map
    fun s => stripAfterUnderscore s.2

/-! Section: privacy filter (`analysis.rs` lines 176-207). -/

/-- Rust `(6000.0 * config.privacy_threshold / 100.0).max(10.0) as usize`
(analysis.rs line 177); the `as usize` cast truncates. -/
def human_cutoff (privacy_threshold : ℚ) : ℕ :=
  (⌊max (6000 * privacy_threshold / 100) 10⌋).toNat

/-- Model of `human_mask` (analysis.rs lines 179-187): a chunk is marked human
when any of its first `human_cutoff` predictions contains `"Human"`. -/
def human_mask (predictions : List (List (String × ℚ)))
    (privacy_threshold : ℚ) : List Bool :=
  predictions.map fun preds =>
    (preds.take (human_cutoff privacy_threshold)).any
      fun p => strContainsSub p.1 "Human"

/-- Model of `neighbour_mask` (analysis.rs lines 189-193):
`(i > 0 && human_mask[i-1]) || (i+1 < human_mask.len() && human_mask[i+1])`. -/
def neighbour_mask (predictions : List (List (String × ℚ)))
    (privacy_threshold : ℚ) : List Bool :=
  (List.range predictions.length).map fun i =>
    (decide (0 < i) && (human_mask predictions privacy_threshold).getD (i - 1) false) ||
    (decide (i + 1 < (human_mask predictions privacy_threshold).length) &&
      (human_mask predictions privacy_threshold).getD (i + 1) false)

/-- Model of `filter_humans` (analysis.rs lines 176-207): human or
human-adjacent chunks are replaced by the single synthetic entry
`("Human_Human", 0.0)`; all other chunks are truncated to their top 10.
The `enumerate().map` is modelled by mapping over the index range (all
three lists have length `predictions.length`, so `getD` never falls back
to its default). -/
def filter_humans (predictions : List (List (String × ℚ)))
    (privacy_threshold : ℚ) : List (List (String × ℚ)) :=
  (List.range predictions.length).map fun i =>
    if (human_mask predictions privacy_threshold).getD i false ||
        (neighbour_mask predictions privacy_threshold).getD i false then
      [("Human_Human", 0)]
    else (predictions.getD i []).take 10

/-! Section: V1 metadata vector (`model.rs` lines 483-497). -/

/-- Model of `convert_v1_metadata`: build the 6-element metadata input
`[lat, lon, w, mask0, mask1, mask2]`; `f64::to_radians` is
`x * π / 180`, and the final `f32` casts are ignored. -/
noncomputable def convert_v1_metadata (lat lon : ℝ) (week : ℕ) : List ℝ :=
  let w : ℝ :=
    if 1 ≤ week ∧ week ≤ 48 then
      Real.cos ((week : ℝ) * (7.5 * Real.pi / 180)) + 1
    else -1
  let mask2 : ℝ := if w = -1 then 0 else 1
  if lat = -1 ∨ lon = -1 then [lat, lon, w, 0, 0, mask2]
  else [lat, lon, w, 1, 1, mask2]

/-! Section: model manifest (`src/processing/src/manifest.rs`).

File-system paths (`PathBuf`) are modelled as strings; the
`HashMap<String, VariantInfo>` of variants is modelled as an association
list with `List.lookup`. -/

/-- Record `ModelSection` (manifest.rs lines 58-72). -/
structure ModelSection where
  name : String
  domain : String
  sample_rate : ℕ
  chunk_duration : ℚ
  tflite_file : String
  labels_file : String
  v1_metadata : Bool
  apply_softmax : Bool
deriving DecidableEq

/-- Record `MetadataSection` (manifest.rs lines 74-79). -/
structure MetadataSection where
  enabled : Bool
  tflite_file : String
deriving DecidableEq

/-- Record `LanguageSection` (manifest.rs lines 81-86). -/
structure LanguageSection where
  dir : String
deriving DecidableEq

/-- Record `VariantInfo` (manifest.rs lines 100-117). -/
structure VariantInfo where
  zenodo_file : String
  md5 : Option String
  tflite_file : Option String
  labels_file : Option String
  metadata_tflite_file : Option String
deriving DecidableEq

/-- Record `DownloadSection` (manifest.rs lines 89-98). -/
structure DownloadSection where
  zenodo_record_id : String
  default_variant : String
  variants : List (String × VariantInfo)
deriving DecidableEq

/-- Record `Manifest` (manifest.rs lines 46-56). -/
structure Manifest where
  model : ModelSection
  metadata_model : Option MetadataSection
  language : Option LanguageSection
  download : Option DownloadSection
deriving DecidableEq

/-- Record `ResolvedManifest` (manifest.rs lines 130-136). -/
structure ResolvedManifest where
  manifest : Manifest
  base_dir : String
deriving DecidableEq

/-- Model of `ResolvedManifest::apply_variant` (manifest.rs lines 174-204),
with the `&mut self` mutation modelled by returning the new value and
`anyhow::Result` by `Except String`: look up the variant and overlay its
`tflite_file` / `labels_file` / `metadata_tflite_file` overrides. -/
def ResolvedManifest.apply_variant (rm : ResolvedManifest)
    (variant_name : String) : Except String ResolvedManifest :=
  match rm.manifest.download with
  | none => Except.ok rm
  | some download =>
    match download.variants.lookup variant_name with
    | none => Except.error "Unknown model variant"
    | some variant =>
      let model0 := rm.manifest.model
      let model1 := match variant.tflite_file with
        | some tf => { model0 with tflite_file := tf }
        | none => model0
      let model2 := match variant.labels_file with
        | some lf => { model1 with labels_file := lf }
        | none => model1
      let meta := match variant.metadata_tflite_file, rm.manifest.metadata_model with
        | some mf, some m => some { m with tflite_file := mf }
        | _, m => m
      Except.ok { rm with
        manifest := { rm.manifest with model := model2, metadata_model := meta } }

/-! Section: download backoff marker (`src/processing/src/download.rs`). -/

/-- Constant `INITIAL_BACKOFF` (download.rs line 440): 5 seconds. -/
def INITIAL_BACKOFF_SECS : ℕ := 5

/-- Constant `MAX_RESTART_BACKOFF_SECS` (download.rs line 22): 600 seconds. -/
def MAX_RESTART_BACKOFF_SECS : ℕ := 600

/-- Model of `write_backoff_marker` (download.rs lines 401-429) as a state
transformer.  The marker file holds `(resume_at, backoff_secs)`; `none`
models a missing or unparsable marker, whose previous backoff reads as
`0` (`unwrap_or(0)`).  Returns the newly written pair
`(now + next_backoff, next_backoff)`. -/
def write_backoff_marker (now : ℕ) (marker : Option (ℕ × ℕ)) : ℕ × ℕ :=
  let prev_backoff := (marker.map Prod.snd).getD 0
  let next_backoff :=
    if prev_backoff = 0 then INITIAL_BACKOFF_SECS
    else min (prev_backoff * 2) MAX_RESTART_BACKOFF_SECS
  (now + next_backoff, next_backoff)

/-- Marker contents after `k` consecutive failures at wall-clock seconds
`times 0, …, times (k-1)`, starting from no marker. -/
def backoff_seq (times : ℕ → ℕ) : ℕ → Option (ℕ × ℕ)
  | 0 => none
  | k + 1 => some (write_backoff_marker (times k) (backoff_seq times k))

/-! Claim theorems: audio reader and chunker. -/

/-- C3 (code bug): `read_audio` divides every integer sample by
`i32::MAX` regardless of the file's bit depth, so a full-scale 16-bit
sample (raw value 32767) decodes to `32767 / 2147483647 < 10⁻⁴` instead
of the claimed magnitude 1 (which would require the 16-bit full-scale
divisor `2¹⁵ - 1`). -/
theorem C3_int_decode_divisor :
    decode_int_samples [some 32767] = [(32767 : ℚ) / 2147483647] ∧
    (32767 : ℚ) / 2147483647 < 1 / 10000 ∧
    (32767 : ℚ) / ((2 : ℚ) ^ 15 - 1) = 1 := by
  refine ⟨?_, by norm_num, by norm_num⟩
  simp [decode_int_samples, i32_MAX]

/-- C4 (amended): with the truncated integer parameters the code
actually uses — `chunk = ⌊S·R⌋`, `step = ⌊(S−O)·R⌋`, `min = ⌊M·R⌋` —
whenever `1 ≤ min ≤ chunk`, `1 ≤ step` and `min ≤ L`, the chunker
returns exactly `(L − min) / step + 1` chunks, and every returned chunk
(including a zero-padded short final one) has length `chunk`; any tail
shorter than `min` is discarded. -/
theorem C4_chunk_count (sig : List ℚ) (rate : ℕ) (seconds overlap min_len : ℚ)
    (hst : 1 ≤ stepSamplesQ rate seconds overlap)
    (hms : 1 ≤ minSamplesQ rate min_len)
    (hcs : minSamplesQ rate min_len ≤ chunkSamplesQ rate seconds)
    (hL : minSamplesQ rate min_len ≤ sig.length) :
    (split_signal sig rate seconds overlap min_len).length =
      (sig.length - minSamplesQ rate min_len) / stepSamplesQ rate seconds overlap + 1 ∧
    ∀ c ∈ split_signal sig rate seconds overlap min_len,
      c.length = chunkSamplesQ rate seconds := by
  constructor
  · rw [split_signal,
      split_go_length _ _ _ _ hst hms hcs _ 0 (by omega)]
    have : 0 + minSamplesQ rate min_len ≤ sig.length := by omega
    rw [if_pos this]
    simp
  · intro c hc
    exact split_go_mem_length _ _ _ _ _ _ c hc

/-- C4 counterexample: for `L = 13`, `R = 3`, `S = 2`, `O = 1/2`,
`M = 3/2` the code returns 3 chunks (it uses the truncated step
`⌊4.5⌋ = 4` and floor `⌊4.5⌋ = 4`), while the claim's real-valued
formula `⌊max(0, L − M·R) / ((S − O)·R)⌋ + 1 = ⌊8.5/4.5⌋ + 1` gives 2;
the first slice has 6 ≥ M·R samples, so the claim's proviso holds. -/
theorem C4_chunk_count_counterexample :
    (split_signal (List.replicate 13 (0 : ℚ)) 3 2 (1 / 2) (3 / 2)).length = 3 ∧
    (⌊max 0 ((13 : ℚ) - 3 / 2 * 3) / (((2 : ℚ) - 1 / 2) * 3)⌋ + 1 : ℤ) = 2 ∧
    (6 : ℚ) ≥ 3 / 2 * 3 := by
  refine ⟨?_, by norm_num, by norm_num⟩
  have h1 : chunkSamplesQ 3 2 = 6 := by norm_num [chunkSamplesQ]; decide
  have h2 : stepSamplesQ 3 2 (1 / 2) = 4 := by norm_num [stepSamplesQ]; decide
  have h3 : minSamplesQ 3 (3 / 2) = 4 := by norm_num [minSamplesQ]; decide
  rw [split_signal, h1, h2, h3,
    split_go_length _ 6 4 4 (by norm_num) (by norm_num) (by norm_num) _ 0 (by omega)]
  simp

/-- Witness for C4 at a 13-sample signal, rate 3, 2 s chunks with 0.5 s
overlap and a 1.5 s floor. -/
theorem C4_chunk_count_witness :
    1 ≤ stepSamplesQ 3 2 (1 / 2) ∧ 1 ≤ minSamplesQ 3 (3 / 2) ∧
    minSamplesQ 3 (3 / 2) ≤ chunkSamplesQ 3 2 ∧
    minSamplesQ 3 (3 / 2) ≤ (List.replicate 13 (0 : ℚ)).length ∧
    ((split_signal (List.replicate 13 (0 : ℚ)) 3 2 (1 / 2) (3 / 2)).length =
        ((List.replicate 13 (0 : ℚ)).length - minSamplesQ 3 (3 / 2)) /
          stepSamplesQ 3 2 (1 / 2) + 1 ∧
      ∀ c ∈ split_signal (List.replicate 13 (0 : ℚ)) 3 2 (1 / 2) (3 / 2),
        c.length = chunkSamplesQ 3 2) := by
  have h1 : chunkSamplesQ 3 2 = 6 := by norm_num [chunkSamplesQ]; decide
  have h2 : stepSamplesQ 3 2 (1 / 2) = 4 := by norm_num [stepSamplesQ]; decide
  have h3 : minSamplesQ 3 (3 / 2) = 4 := by norm_num [minSamplesQ]; decide
  refine ⟨by omega, by omega, by omega, by simp [h3], ?_⟩
  exact C4_chunk_count (List.replicate 13 (0 : ℚ)) 3 2 (1 / 2) (3 / 2)
    (by omega) (by omega) (by omega) (by simp [h3])

/-- C10: when `(S − O)·R ≥ 1` (so the step is positive) and `S·R ≥ 0`,
every chunk returned by the chunker has length exactly `⌊S·R⌋`: short
final chunks surviving the minimum-length floor are zero-padded to the
full chunk length and no shorter chunk is ever returned. -/
theorem C10_chunk_fixed_length (sig : List ℚ) (rate : ℕ)
    (seconds overlap min_len : ℚ)
    (hst : 1 ≤ ((seconds - overlap) * (rate : ℚ)))
    (hpos : 0 ≤ seconds * (rate : ℚ)) :
    ∀ c ∈ split_signal sig rate seconds overlap min_len,
      (c.length : ℤ) = ⌊seconds * (rate : ℚ)⌋ := by
  intro c hc
  have hlen : c.length = chunkSamplesQ rate seconds :=
    split_go_mem_length _ _ _ _ _ _ c hc
  rw [hlen, chunkSamplesQ, Int.toNat_of_nonneg (Int.floor_nonneg.mpr hpos)]

/-- Witness for C10 at a 7-sample signal, rate 2, 1.5 s chunks, no
overlap, 0.5 s floor (the final 1-sample chunk is padded to 3). -/
theorem C10_chunk_fixed_length_witness :
    1 ≤ (((3 : ℚ) / 2 - 0) * ((2 : ℕ) : ℚ)) ∧
    0 ≤ ((3 : ℚ) / 2 * ((2 : ℕ) : ℚ)) ∧
    ∀ c ∈ split_signal (List.replicate 7 (0 : ℚ)) 2 (3 / 2) 0 (1 / 2),
      (c.length : ℤ) = ⌊(3 : ℚ) / 2 * ((2 : ℕ) : ℚ)⌋ :=
  ⟨by norm_num, by norm_num,
    C10_chunk_fixed_length (List.replicate 7 (0 : ℚ)) 2 (3 / 2) 0 (1 / 2)
      (by norm_num) (by norm_num)⟩

/-! Claim theorems: detection emission (C7). -/

/-- C7: every detection emitted by the `run_analysis` filter loop comes
from a prediction whose raw post-processed confidence is at least the
configured threshold (the comparison is made on the raw score), and the
stored confidence is that raw confidence rounded to four decimal
places. -/
theorem C7_detection_confidence (confidence_min : ℚ)
    (include_list exclude_list whitelist : List String)
    (entries : List (String × ℚ)) :
    ∀ d ∈ run_analysis_filter confidence_min include_list exclude_list whitelist entries,
      ∃ p ∈ entries, confidence_min ≤ p.2 ∧ d.confidence = round4 p.2 ∧
        d.scientific_name = p.1 := by
  intro d hd
  rw [run_analysis_filter, List.mem_filterMap] at hd
  obtain ⟨p, hp, hfp⟩ := hd
  by_cases hk : keep_prediction confidence_min include_list exclude_list
      predicted_species_list whitelist p.1 p.2
  · rw [if_pos hk] at hfp
    have hd' : ({ scientific_name := p.1, confidence := round4 p.2 } : DetectionM) = d :=
      Option.some.inj hfp
    subst hd'
    have hk' := hk
    simp only [keep_prediction, Bool.and_eq_true, Bool.not_eq_true',
      decide_eq_false_iff_not] at hk'
    refine ⟨p, hp, ?_, rfl, rfl⟩
    have h1 := hk'.1.1.1
    simp at h1
    exact le_of_not_lt (by simpa using h1)
  · rw [if_neg hk] at hfp
    simp at hfp

/-- Witness for C7: the prediction `("A", 0.9)` at threshold `0.5` is
emitted with stored confidence `round4 0.9 = 0.9`. -/
theorem C7_detection_confidence_witness :
    ({ scientific_name := "A", confidence := 9 / 10 } : DetectionM) ∈
        run_analysis_filter (1 / 2) [] [] [] [("A", 9 / 10)] ∧
    ∃ p ∈ [("A", (9 : ℚ) / 10)], (1 : ℚ) / 2 ≤ p.2 ∧
      ({ scientific_name := "A", confidence := 9 / 10 } : DetectionM).confidence =
        round4 p.2 ∧
      ({ scientific_name := "A", confidence := 9 / 10 } : DetectionM).scientific_name =
        p.1 := by
  have h4 : round4 ((9 : ℚ) / 10) = 9 / 10 := by
    rw [round4, roundHalfAwayQ, if_pos (by norm_num : (0 : ℚ) ≤ 9 / 10 * 10000)]
    norm_num
  have hlt : ¬ ((9 : ℚ) / 10 < 1 / 2) := by norm_num
  have hmem : ({ scientific_name := "A", confidence := 9 / 10 } : DetectionM) ∈
      run_analysis_filter (1 / 2) [] [] [] [("A", 9 / 10)] := by
    refine List.mem_filterMap.mpr ⟨("A", 9 / 10), by simp, ?_⟩
    simp [keep_prediction, predicted_species_list, hlt, h4]
    norm_num
  exact ⟨hmem,
    C7_detection_confidence (1 / 2) [] [] [] [("A", 9 / 10)] _ hmem⟩

/-! Claim theorems: occurrence gate and threshold filter (C2). -/

/-- C2 counterexample: take an occurrence gate whose query output puts
only `"A"` above threshold — `metaSpeciesList ["A_A"] [1] (1/2) = ["A"]`,
a non-empty list.  The prediction `("B", 0.9)` has confidence at least
the `0.5` minimum, its label is not in that list and not in the (empty)
whitelist, so by the claim it must be rejected; yet the filter emits it,
because it consults the hard-coded empty `predicted_species_list`
instead of the gate output. -/
theorem C2_gate_counterexample :
    metaSpeciesList ["A_A"] [1] (1 / 2) = ["A"] ∧
    metaSpeciesList ["A_A"] [1] (1 / 2) ≠ [] ∧
    "B" ∉ metaSpeciesList ["A_A"] [1] (1 / 2) ∧
    "B" ∉ ([] : List String) ∧
    run_analysis_filter (1 / 2) [] [] [] [("B", 9 / 10)] =
      [{ scientific_name := "B", confidence := 9 / 10 }] := by
  have hg : metaSpeciesList ["A_A"] [1] (1 / 2) = ["A"] := by
    rw [metaSpeciesList]
    simp only [List.zip_cons_cons, List.zip_nil_right, List.mergeSort_singleton]
    rw [List.filter_cons_of_pos (by norm_num)]
    simp [stripAfterUnderscore]
  have h4 : round4 ((9 : ℚ) / 10) = 9 / 10 := by
    rw [round4, roundHalfAwayQ, if_pos (by norm_num : (0 : ℚ) ≤ 9 / 10 * 10000)]
    norm_num
  have hlt : ¬ ((9 : ℚ) / 10 < 1 / 2) := by norm_num
  refine ⟨hg, by rw [hg]; simp, by rw [hg]; simp, by simp, ?_⟩
  rw [run_analysis_filter]
  simp [keep_prediction, predicted_species_list, hlt, h4]
  simp [List.filterMap_cons, h4]
  norm_num

/-- C2 (amended): the threshold-and-list filter of `run_analysis`
consults the hard-coded empty `predicted_species_list`; the loaded
model's occurrence-gate query is not wired into it, so the
occurrence-gate clause never rejects anything: every prediction whose
confidence is at least the minimum and which passes the include and
exclude lists is emitted, whatever the gate returned and whatever the
whitelist contains. -/
theorem C2_filter_ignores_gate (confidence_min : ℚ)
    (include_list exclude_list whitelist : List String)
    (entries : List (String × ℚ)) (sci : String) (c : ℚ)
    (hmem : (sci, c) ∈ entries) (hconf : confidence_min ≤ c)
    (hinc : include_list = [] ∨ sci ∈ include_list)
    (hexc : sci ∉ exclude_list) :
    predicted_species_list = [] ∧
    ({ scientific_name := sci, confidence := round4 c } : DetectionM) ∈
      run_analysis_filter confidence_min include_list exclude_list whitelist entries := by
  refine ⟨rfl, ?_⟩
  refine List.mem_filterMap.mpr ⟨(sci, c), hmem, ?_⟩
  have hlt : ¬ (c < confidence_min) := not_lt.mpr hconf
  have hk : keep_prediction confidence_min include_list exclude_list
      predicted_species_list whitelist sci c = true := by
    rcases hinc with h | h
    · subst h
      simp [keep_prediction, predicted_species_list, hlt, hexc]
    · simp [keep_prediction, predicted_species_list, hlt, hexc, h]
  simp [hk]

/-- Witness for C2 (amended) at the prediction `("B", 0.9)`, threshold
`0.5`, all user lists empty. -/
theorem C2_filter_ignores_gate_witness :
    predicted_species_list = [] ∧
    ({ scientific_name := "B", confidence := round4 ((9 : ℚ) / 10) } : DetectionM) ∈
      run_analysis_filter (1 / 2) [] [] [] [("B", 9 / 10)] :=
  C2_filter_ignores_gate (1 / 2) [] [] [] [("B", (9 : ℚ) / 10)] "B" (9 / 10)
    (by simp) (by norm_num) (Or.inl rfl) (by simp)

/-! Claim theorems: privacy filter (C5). -/

theorem List.getD_range_map {α : Type*} (n : ℕ) (g : ℕ → α) (j : ℕ) (d : α)
    (h : j < n) : ((List.range n).map g).getD j d = g j := by
  rw [List.getD_eq_getElem?_getD, List.getElem?_map, List.getElem?_range h]
  rfl

theorem human_mask_length (predictions : List (List (String × ℚ))) (P : ℚ) :
    (human_mask predictions P).length = predictions.length := by
  simp [human_mask]

theorem human_cutoff_floor (P : ℚ) :
    human_cutoff P = max 10 (⌊60 * P⌋.toNat) := by
  have h60 : (6000 : ℚ) * P / 100 = 60 * P := by ring
  have h10 : ⌊(10 : ℚ)⌋ = 10 := by norm_num
  have hmax : ⌊max ((60 : ℚ) * P) 10⌋ = max ⌊(60 : ℚ) * P⌋ ⌊(10 : ℚ)⌋ :=
    Int.floor_mono.map_max
  rw [human_cutoff, h60, hmax, h10]
  omega

/-- C5 (amended): the privacy filter's cutoff rank is
`max(10, ⌊60·P⌋)` — the `as usize` cast *truncates* `60·P` instead of
rounding it — and with that cutoff: a chunk is marked human when any of
its top-cutoff predictions contains `"Human"`; a human-marked chunk at
index `i` makes chunks `i-1`, `i`, `i+1` each emit only
`("Human_Human", 0.0)`; and a chunk that is neither human-marked nor
adjacent to one is truncated to its top 10 predictions. -/
theorem C5_privacy_filter (predictions : List (List (String × ℚ))) (P : ℚ)
    (i : ℕ) (hi : i < predictions.length) :
    human_cutoff P = max 10 (⌊60 * P⌋.toNat) ∧
    ((human_mask predictions P).getD i false = true →
      (filter_humans predictions P).getD i [] = [("Human_Human", 0)] ∧
      (0 < i → (filter_humans predictions P).getD (i - 1) [] = [("Human_Human", 0)]) ∧
      (i + 1 < predictions.length →
        (filter_humans predictions P).getD (i + 1) [] = [("Human_Human", 0)])) ∧
    ((human_mask predictions P).getD i false = false →
      (0 < i → (human_mask predictions P).getD (i - 1) false = false) →
      (i + 1 < predictions.length →
        (human_mask predictions P).getD (i + 1) false = false) →
      (filter_humans predictions P).getD i [] = (predictions.getD i []).take 10) := by
  refine ⟨human_cutoff_floor P, ?_, ?_⟩
  · intro hM
    refine ⟨?_, ?_, ?_⟩
    · rw [filter_humans, List.getD_range_map _ _ _ _ hi, hM]
      simp
    · intro hpos
      have hneigh : (neighbour_mask predictions P).getD (i - 1) false = true := by
        rw [neighbour_mask, List.getD_range_map _ _ _ _ (by omega)]
        have h1 : i - 1 + 1 = i := by omega
        rw [h1, human_mask_length, hM]
        simp [hi]
      rw [filter_humans, List.getD_range_map _ _ _ _ (by omega), hneigh]
      simp
    · intro hnext
      have hneigh : (neighbour_mask predictions P).getD (i + 1) false = true := by
        rw [neighbour_mask, List.getD_range_map _ _ _ _ hnext]
        have h1 : i + 1 - 1 = i := by omega
        rw [h1, hM]
        have hp : 0 < i + 1 := Nat.succ_pos i
        simp [hp]
      rw [filter_humans, List.getD_range_map _ _ _ _ hnext, hneigh]
      simp
  · intro hM hprev hnext
    have hneigh : (neighbour_mask predictions P).getD i false = false := by
      rw [neighbour_mask, List.getD_range_map _ _ _ _ hi, human_mask_length]
      by_cases h0 : 0 < i
      · by_cases h1 : i + 1 < predictions.length
        · rw [hprev h0, hnext h1]
          simp
        · rw [hprev h0]
          simp [h1]
      · by_cases h1 : i + 1 < predictions.length
        · rw [hnext h1]
          simp [h0]
        · simp [h0, h1]
    rw [filter_humans, List.getD_range_map _ _ _ _ hi, hM, hneigh]
    simp

/-- C5 counterexample: at privacy threshold `P = 0.3125` percent the
code's cutoff is `⌊18.75⌋ = 18` while the claim's `max(10, round(60·P))`
is `19`.  With 18 non-human predictions followed by `"Human"` at rank
19, the claim says the chunk is human-marked (its top-19 contain
`"Human"`) and must emit only the synthetic entry, but the code emits
the top-10 truncation. -/
theorem C5_privacy_filter_counterexample :
    human_cutoff (5 / 16) = 18 ∧
    max 10 (roundHalfAwayQ (60 * (5 / 16))) = 19 ∧
    ((List.replicate 18 ("A", (9 : ℚ) / 10) ++ [("Human", 1 / 10)]).take 19).any
        (fun p => strContainsSub p.1 "Human") = true ∧
    filter_humans [List.replicate 18 ("A", (9 : ℚ) / 10) ++ [("Human", 1 / 10)]] (5 / 16) =
      [List.replicate 10 ("A", (9 : ℚ) / 10)] := by
  have hval : (6000 : ℚ) * (5 / 16) / 100 = 75 / 4 := by norm_num
  have hc : human_cutoff (5 / 16) = 18 := by
    rw [human_cutoff, hval, max_eq_left (by norm_num : (10 : ℚ) ≤ 75 / 4)]
    norm_num
    decide
  have hr : max 10 (roundHalfAwayQ (60 * (5 / 16 : ℚ))) = 19 := by
    rw [roundHalfAwayQ, if_pos (by norm_num : (0 : ℚ) ≤ 60 * (5 / 16))]
    norm_num
  have hany : ((List.replicate 18 ("A", (9 : ℚ) / 10) ++ [("Human", 1 / 10)]).take 19).any
      (fun p => strContainsSub p.1 "Human") = true := by
    decide
  refine ⟨hc, hr, hany, ?_⟩
  have hmask : (human_mask [List.replicate 18 ("A", (9 : ℚ) / 10) ++ [("Human", 1 / 10)]]
      (5 / 16)).getD 0 false = false := by
    rw [human_mask]
    simp only [List.map_cons, List.map_nil, List.getD_cons_zero]
    rw [hc]
    decide
  have hneigh : (neighbour_mask [List.replicate 18 ("A", (9 : ℚ) / 10) ++ [("Human", 1 / 10)]]
      (5 / 16)).getD 0 false = false := by
    rw [neighbour_mask, List.getD_range_map _ _ _ _ (by simp), human_mask_length]
    simp
  rw [filter_humans]
  have hlen1 : ([List.replicate 18 ("A", (9 : ℚ) / 10) ++ [("Human", 1 / 10)]] :
      List (List (String × ℚ))).length = 1 := by simp
  rw [hlen1, show List.range 1 = [0] from rfl]
  simp only [List.map_cons, List.map_nil]
  rw [hmask, hneigh]
  simp only [Bool.or_false, Bool.false_or, if_false, List.getD_cons_zero]
  rw [List.take_append_of_le_length (by simp), List.take_replicate]
  norm_num

/-- Witness for C5 (amended) on three chunks with a human hit in the
first one, at privacy threshold 0. -/
theorem C5_privacy_filter_witness :
    0 < ([[("Human", (1 : ℚ))], [("A", 1)], [("A", 1)]] :
        List (List (String × ℚ))).length ∧
    (human_cutoff 0 = max 10 (⌊(60 : ℚ) * 0⌋.toNat) ∧
    ((human_mask [[("Human", (1 : ℚ))], [("A", 1)], [("A", 1)]] 0).getD 0 false = true →
      (filter_humans [[("Human", (1 : ℚ))], [("A", 1)], [("A", 1)]] 0).getD 0 [] =
        [("Human_Human", 0)] ∧
      (0 < 0 → (filter_humans [[("Human", (1 : ℚ))], [("A", 1)], [("A", 1)]] 0).getD (0 - 1) [] =
        [("Human_Human", 0)]) ∧
      (0 + 1 < ([[("Human", (1 : ℚ))], [("A", 1)], [("A", 1)]] :
          List (List (String × ℚ))).length →
        (filter_humans [[("Human", (1 : ℚ))], [("A", 1)], [("A", 1)]] 0).getD (0 + 1) [] =
          [("Human_Human", 0)])) ∧
    ((human_mask [[("Human", (1 : ℚ))], [("A", 1)], [("A", 1)]] 0).getD 0 false = false →
      (0 < 0 → (human_mask [[("Human", (1 : ℚ))], [("A", 1)], [("A", 1)]] 0).getD (0 - 1) false = false) →
      (0 + 1 < ([[("Human", (1 : ℚ))], [("A", 1)], [("A", 1)]] :
          List (List (String × ℚ))).length →
        (human_mask [[("Human", (1 : ℚ))], [("A", 1)], [("A", 1)]] 0).getD (0 + 1) false = false) →
      (filter_humans [[("Human", (1 : ℚ))], [("A", 1)], [("A", 1)]] 0).getD 0 [] =
        (([[("Human", (1 : ℚ))], [("A", 1)], [("A", 1)]] :
          List (List (String × ℚ))).getD 0 []).take 10)) :=
  ⟨by simp,
    C5_privacy_filter [[("Human", (1 : ℚ))], [("A", 1)], [("A", 1)]] 0 0 (by simp)⟩

/-! Claim theorems: V1 metadata vector (C6). -/

/-- C6: for every `(lat, lon, week)`, `convert_v1_metadata` returns
`[lat, lon, w, m0, m1, m2]` with `w = cos(week·7.5°) + 1` when
`1 ≤ week ≤ 48` and `w = -1` otherwise (so `w ∈ [-1, 2]`); `(m0, m1)`
are `(0, 0)` when either coordinate equals the sentinel `-1.0` and
`(1, 1)` otherwise; `m2 = 0` iff `w = -1`, else `1`; and every mask is
`0` or `1`. -/
theorem C6_v1_metadata (lat lon : ℝ) (week : ℕ) :
    ∃ w m0 m1 m2 : ℝ,
      convert_v1_metadata lat lon week = [lat, lon, w, m0, m1, m2] ∧
      w = (if 1 ≤ week ∧ week ≤ 48 then
            Real.cos ((week : ℝ) * (7.5 * Real.pi / 180)) + 1 else -1) ∧
      -1 ≤ w ∧ w ≤ 2 ∧
      m0 = (if lat = -1 ∨ lon = -1 then (0 : ℝ) else 1) ∧
      m1 = (if lat = -1 ∨ lon = -1 then (0 : ℝ) else 1) ∧
      m2 = (if w = -1 then (0 : ℝ) else 1) ∧
      (m2 = 0 ↔ w = -1) ∧
      (m0 = 0 ∨ m0 = 1) ∧ (m1 = 0 ∨ m1 = 1) ∧ (m2 = 0 ∨ m2 = 1) := by
  have hcge : -1 ≤ Real.cos ((week : ℝ) * (7.5 * Real.pi / 180)) :=
    Real.neg_one_le_cos _
  have hcle : Real.cos ((week : ℝ) * (7.5 * Real.pi / 180)) ≤ 1 :=
    Real.cos_le_one _
  refine ⟨if 1 ≤ week ∧ week ≤ 48 then
      Real.cos ((week : ℝ) * (7.5 * Real.pi / 180)) + 1 else -1,
    if lat = -1 ∨ lon = -1 then (0 : ℝ) else 1,
    if lat = -1 ∨ lon = -1 then (0 : ℝ) else 1,
    if (if 1 ≤ week ∧ week ≤ 48 then
      Real.cos ((week : ℝ) * (7.5 * Real.pi / 180)) + 1 else -1) = -1 then (0 : ℝ) else 1,
    ?_, rfl, ?_, ?_, rfl, rfl, rfl, ?_, ?_, ?_, ?_⟩
  · rw [convert_v1_metadata]
    by_cases hs : lat = -1 ∨ lon = -1
    · simp only [hs, if_true]
    · simp only [hs, if_false]
  · by_cases hw : 1 ≤ week ∧ week ≤ 48
    · rw [if_pos hw]
      linarith
    · rw [if_neg hw]
  · by_cases hw : 1 ≤ week ∧ week ≤ 48
    · rw [if_pos hw]
      linarith
    · rw [if_neg hw]
      norm_num
  · by_cases hv : (if 1 ≤ week ∧ week ≤ 48 then
        Real.cos ((week : ℝ) * (7.5 * Real.pi / 180)) + 1 else -1) = -1
    · rw [if_pos hv]
      exact ⟨fun _ => hv, fun _ => rfl⟩
    · rw [if_neg hv]
      constructor
      · intro h
        norm_num at h
      · intro h
        exact absurd h hv
  · by_cases hs : lat = -1 ∨ lon = -1
    · rw [if_pos hs]
      exact Or.inl rfl
    · rw [if_neg hs]
      exact Or.inr rfl
  · by_cases hs : lat = -1 ∨ lon = -1
    · rw [if_pos hs]
      exact Or.inl rfl
    · rw [if_neg hs]
      exact Or.inr rfl
  · by_cases hv : (if 1 ≤ week ∧ week ≤ 48 then
        Real.cos ((week : ℝ) * (7.5 * Real.pi / 180)) + 1 else -1) = -1
    · rw [if_pos hv]
      exact Or.inl rfl
    · rw [if_neg hv]
      exact Or.inr rfl

/-! Claim theorems: variant overrides (C8). -/

/-- C8: applying a variant's overrides is idempotent — whenever
`apply_variant` succeeds (in particular for every variant declared in
the manifest's download block), applying the same variant again to the
result leaves it unchanged. -/
theorem C8_apply_variant_idempotent (rm rm' : ResolvedManifest) (v : String)
    (h : rm.apply_variant v = Except.ok rm') :
    rm'.apply_variant v = Except.ok rm' := by
  obtain ⟨⟨⟨nm, dom, sr, cd, tf, lf, v1, sm⟩, mm, lang, dl⟩, base⟩ := rm
  cases dl with
  | none =>
    simp only [ResolvedManifest.apply_variant, Except.ok.injEq] at h
    subst h
    rfl
  | some d =>
    obtain ⟨zid, dv, vars⟩ := d
    cases hv : vars.lookup v with
    | none =>
      simp only [ResolvedManifest.apply_variant, hv] at h
      cases h
    | some info =>
      simp only [ResolvedManifest.apply_variant, hv, Except.ok.injEq] at h
      subst h
      obtain ⟨zf, md5v, itf, ilf, imf⟩ := info
      cases itf <;> cases ilf <;> cases imf <;> cases mm <;>
        simp [ResolvedManifest.apply_variant, hv]

/-- Witness for C8: a manifest with one declared variant `fp32`
overriding the model and label files; applying it once rewrites the
files, applying it again changes nothing. -/
theorem C8_apply_variant_idempotent_witness :
    ResolvedManifest.apply_variant
      { manifest :=
          { model :=
              { name := "Test", domain := "test", sample_rate := 48000,
                chunk_duration := 3, tflite_file := "default.tflite",
                labels_file := "labels.txt", v1_metadata := false,
                apply_softmax := false },
            metadata_model := none, language := none,
            download := some
              { zenodo_record_id := "12345", default_variant := "fp16",
                variants := [("fp32",
                  { zenodo_file := "test.zip", md5 := none,
                    tflite_file := some "big_model.tflite",
                    labels_file := some "big_labels.txt",
                    metadata_tflite_file := none })] } },
        base_dir := "models/test" } "fp32" =
      Except.ok
        { manifest :=
            { model :=
                { name := "Test", domain := "test", sample_rate := 48000,
                  chunk_duration := 3, tflite_file := "big_model.tflite",
                  labels_file := "big_labels.txt", v1_metadata := false,
                  apply_softmax := false },
              metadata_model := none, language := none,
              download := some
                { zenodo_record_id := "12345", default_variant := "fp16",
                  variants := [("fp32",
                    { zenodo_file := "test.zip", md5 := none,
                      tflite_file := some "big_model.tflite",
                      labels_file := some "big_labels.txt",
                      metadata_tflite_file := none })] } },
          base_dir := "models/test" } ∧
    ResolvedManifest.apply_variant
      { manifest :=
          { model :=
              { name := "Test", domain := "test", sample_rate := 48000,
                chunk_duration := 3, tflite_file := "big_model.tflite",
                labels_file := "big_labels.txt", v1_metadata := false,
                apply_softmax := false },
            metadata_model := none, language := none,
            download := some
              { zenodo_record_id := "12345", default_variant := "fp16",
                variants := [("fp32",
                  { zenodo_file := "test.zip", md5 := none,
                    tflite_file := some "big_model.tflite",
                    labels_file := some "big_labels.txt",
                    metadata_tflite_file := none })] } },
        base_dir := "models/test" } "fp32" =
      Except.ok
        { manifest :=
            { model :=
                { name := "Test", domain := "test", sample_rate := 48000,
                  chunk_duration := 3, tflite_file := "big_model.tflite",
                  labels_file := "big_labels.txt", v1_metadata := false,
                  apply_softmax := false },
              metadata_model := none, language := none,
              download := some
                { zenodo_record_id := "12345", default_variant := "fp16",
                  variants := [("fp32",
                    { zenodo_file := "test.zip", md5 := none,
                      tflite_file := some "big_model.tflite",
                      labels_file := some "big_labels.txt",
                      metadata_tflite_file := none })] } },
          base_dir := "models/test" } :=
  ⟨rfl, C8_apply_variant_idempotent
    { manifest :=
        { model :=
            { name := "Test", domain := "test", sample_rate := 48000,
              chunk_duration := 3, tflite_file := "default.tflite",
              labels_file := "labels.txt", v1_metadata := false,
              apply_softmax := false },
          metadata_model := none, language := none,
          download := some
            { zenodo_record_id := "12345", default_variant := "fp16",
              variants := [("fp32",
                { zenodo_file := "test.zip", md5 := none,
                  tflite_file := some "big_model.tflite",
                  labels_file := some "big_labels.txt",
                  metadata_tflite_file := none })] } },
      base_dir := "models/test" } _ "fp32" rfl⟩

/-! Claim theorems: download backoff (C9). -/

theorem backoff_seq_closed (times : ℕ → ℕ) (k : ℕ) :
    backoff_seq times (k + 1) =
      some (times k + min (INITIAL_BACKOFF_SECS * 2 ^ k) MAX_RESTART_BACKOFF_SECS,
        min (INITIAL_BACKOFF_SECS * 2 ^ k) MAX_RESTART_BACKOFF_SECS) := by
  induction k with
  | zero =>
    simp [backoff_seq, write_backoff_marker, INITIAL_BACKOFF_SECS,
      MAX_RESTART_BACKOFF_SECS]
  | succ k ih =>
    have hstep : backoff_seq times (k + 1 + 1) =
        some (write_backoff_marker (times (k + 1)) (backoff_seq times (k + 1))) := rfl
    rw [hstep, ih, write_backoff_marker]
    have h1 : 1 ≤ 2 ^ k := Nat.one_le_two_pow
    have h2 : (2 : ℕ) ^ (k + 1) = 2 ^ k * 2 := pow_succ 2 k
    simp only [Option.map_some', Option.getD_some, INITIAL_BACKOFF_SECS,
      MAX_RESTART_BACKOFF_SECS, h2]
    rw [if_neg (by omega)]
    refine congrArg some ?_
    rw [Prod.mk.injEq]
    constructor
    · generalize (2 : ℕ) ^ k = a at *
      omega
    · generalize (2 : ℕ) ^ k = a at *
      omega

/-- C9: after `k + 1` consecutive failures at non-decreasing times, the
marker holds backoff `min(5·2^k, 600)` — i.e. it starts at the 5 s
initial backoff and doubles on each failure, capped at the 600 s
maximum — and earliest-retry stamp `now + backoff`; the stamp recorded
by the next failure is never smaller. -/
theorem C9_backoff_monotone (times : ℕ → ℕ) (hmono : Monotone times) (k : ℕ) :
    backoff_seq times (k + 1) =
      some (times k + min (INITIAL_BACKOFF_SECS * 2 ^ k) MAX_RESTART_BACKOFF_SECS,
        min (INITIAL_BACKOFF_SECS * 2 ^ k) MAX_RESTART_BACKOFF_SECS) ∧
    min (INITIAL_BACKOFF_SECS * 2 ^ (k + 1)) MAX_RESTART_BACKOFF_SECS =
      min (min (INITIAL_BACKOFF_SECS * 2 ^ k) MAX_RESTART_BACKOFF_SECS * 2)
        MAX_RESTART_BACKOFF_SECS ∧
    times k + min (INITIAL_BACKOFF_SECS * 2 ^ k) MAX_RESTART_BACKOFF_SECS ≤
      times (k + 1) + min (INITIAL_BACKOFF_SECS * 2 ^ (k + 1)) MAX_RESTART_BACKOFF_SECS := by
  have h1 : 1 ≤ 2 ^ k := Nat.one_le_two_pow
  have h2 : (2 : ℕ) ^ (k + 1) = 2 ^ k * 2 := pow_succ 2 k
  have ht : times k ≤ times (k + 1) := hmono (Nat.le_succ k)
  refine ⟨backoff_seq_closed times k, ?_, ?_⟩
  · simp only [INITIAL_BACKOFF_SECS, MAX_RESTART_BACKOFF_SECS, h2]
    generalize (2 : ℕ) ^ k = a at *
    omega
  · simp only [INITIAL_BACKOFF_SECS, MAX_RESTART_BACKOFF_SECS, h2]
    generalize (2 : ℕ) ^ k = a at *
    omega

/-- Witness for C9 at the identity failure-time sequence, after the
first failure. -/
theorem C9_backoff_monotone_witness :
    backoff_seq (fun n => n) (0 + 1) =
      some (0 + min (INITIAL_BACKOFF_SECS * 2 ^ 0) MAX_RESTART_BACKOFF_SECS,
        min (INITIAL_BACKOFF_SECS * 2 ^ 0) MAX_RESTART_BACKOFF_SECS) ∧
    min (INITIAL_BACKOFF_SECS * 2 ^ (0 + 1)) MAX_RESTART_BACKOFF_SECS =
      min (min (INITIAL_BACKOFF_SECS * 2 ^ 0) MAX_RESTART_BACKOFF_SECS * 2)
        MAX_RESTART_BACKOFF_SECS ∧
    0 + min (INITIAL_BACKOFF_SECS * 2 ^ 0) MAX_RESTART_BACKOFF_SECS ≤
      1 + min (INITIAL_BACKOFF_SECS * 2 ^ (0 + 1)) MAX_RESTART_BACKOFF_SECS :=
  C9_backoff_monotone (fun n => n) (fun _ _ h => h) 0
